import Mathlib

/-!
Verification of the viswin LEO satellite-link simulator.

This file gives a shallow embedding of the core of the repository:

* `rf_channel_leo.py`  — the stochastic RF channel (`propagate`), with the
  module-level fade state made explicit and the `random.random()` draws
  supplied as a stream `u : ℕ → ℝ` of values in `[0,1)`;
* `orbit_leo.py`       — the link budget `data_rate_mbps`, the sinusoidal
  fallback geometry back-end and `OrbitModel.get_state` (the Skyfield
  back-end depends on an external library and is out of scope);
* `satellite_leo.py`   — the per-tick TM burst budget of `telemetry_sender`
  and the per-iteration body of `telecommand_executor`;
* `bbu_leo.py`         — the per-datagram body of `tm_receiver` and the
  per-iteration body of `tc_sender`.

Python floats are modelled as real numbers, Python ints as `ℤ`/`ℕ`, dicts
carrying the channel-relevant keys as the structure `Packet`, and mutation
of dicts (for the frame conditions of `propagate`) as updates on an explicit
heap `List (Packet α)` addressed by position.
-/

open Real

namespace SatSim

/-- Model of Python `str.lower()` (the direction strings here are ASCII). -/
def strLower (s : String) : String := ⟨s.data.map Char.toLower⟩

/-- Advance a stream of random draws by `k` consumed values. -/
def shift (u : ℕ → ℝ) (k : ℕ) : ℕ → ℝ := fun n => u (n + k)

/-- Channel parameters: the module-level constants of `rf_channel_leo.py`
(`BASE_PACKET_LOSS`, `BASE_BIT_ERROR`, `BASE_DUPLICATE`,
`BURST_FADE_START_PROB`, `BURST_FADE_LENGTH_PKTS`). -/
structure ChannelParams where
  base_loss : ℝ
  base_ber : ℝ
  base_dup : ℝ
  burst_start : ℝ
  fade_len : ℤ

/-- Default values of the module constants in `rf_channel_leo.py`. -/
noncomputable def defaultChannelParams : ChannelParams :=
  { base_loss := 0.08, base_ber := 0.02, base_dup := 0.002,
    burst_start := 0.0015, fade_len := 25 }

/-- The mutable module state `_in_fade`, `_fade_remaining` of
`rf_channel_leo.py`. -/
structure ChanState where
  in_fade : Bool
  fade_remaining : ℤ
deriving DecidableEq

/-- The initial (Clear) channel state: `_in_fade = False`,
`_fade_remaining = 0`. -/
def ChanState.clear : ChanState := { in_fade := false, fade_remaining := 0 }

/-- A packet dict as seen by the channel: the three keys the channel reads or
writes (`corrupted`, `rf_note`, `duplicated`), each `Option` because a dict
key may be absent, plus all remaining key/value entries bundled opaquely as
`rest` (the channel never touches them). -/
structure Packet (α : Type) where
  rest : α
  corrupted : Option Bool
  rf_note : Option String
  duplicated : Option Bool
deriving DecidableEq

/-- The helper `_link_quality_from_elev` of `rf_channel_leo.py`. -/
noncomputable def linkQuality (elev_deg : ℝ) (elev_mask : ℝ) : ℝ :=
  if elev_deg ≤ elev_mask then 0
  else
    let q := (elev_deg - elev_mask) / (90 - elev_mask)
    let q := if q < 0 then 0 else q
    if q > 1 then 1 else q

/-- The body of `propagate` in `rf_channel_leo.py`, with the fixed
propagation delay (`time.sleep`) elided and the `random.random()` draws taken
from the stream `u` (the in-fade early return consumes no draw; ignition
consumes one; a random loss two; a delivery four). Returns the verdict
(`none` = DROPPED), the new module fade state, and the remaining stream. -/
noncomputable def propagate {α : Type} (p : ChannelParams) (st : ChanState)
    (pkt : Packet α) (elev_deg : ℝ) (direction : String) (u : ℕ → ℝ) :
    Option (Packet α) × ChanState × (ℕ → ℝ) :=
  let q := linkQuality elev_deg 10
  let fade_start := p.burst_start * (1 + (1 - q) * 3)
  if st.in_fade then
    let r := st.fade_remaining - 1
    (none, { in_fade := if r ≤ 0 then false else st.in_fade, fade_remaining := r }, u)
  else if u 0 < fade_start then
    (none, { in_fade := true, fade_remaining := p.fade_len }, shift u 1)
  else
    let loss_p := p.base_loss * (1 - q) ^ (1.6 : ℝ)
    let loss_p := if strLower direction == "uplink" then loss_p * 1.15 else loss_p
    if u 1 < loss_p then
      (none, st, shift u 2)
    else
      let out := pkt
      let ber_p := p.base_ber * (1 - q) ^ (2 : ℝ)
      let ber_p := if strLower direction == "uplink" then ber_p * 1.10 else ber_p
      let out :=
        if u 2 < ber_p then
          { out with corrupted := some true, rf_note := some "bit_error" }
        else
          { out with corrupted := some (out.corrupted.getD false) }
      let dup_p := p.base_dup * (1 + (1 - q))
      let out :=
        if u 3 < dup_p then { out with duplicated := some true }
        else { out with duplicated := some false }
      (some out, st, shift u 4)

/-- Outcomes of `n` successive `propagate` calls on the same channel instance
(same packet contents and elevation each time), threading fade state and the
random stream; returns the list of verdicts in call order. -/
noncomputable def runCalls {α : Type} (p : ChannelParams) (pkt : Packet α)
    (elev_deg : ℝ) (direction : String) :
    ℕ → ChanState × (ℕ → ℝ) → List (Option (Packet α)) × ChanState × (ℕ → ℝ)
  | 0, su => ([], su.1, su.2)
  | n + 1, su =>
    let r := propagate p su.1 pkt elev_deg direction su.2
    let rest := runCalls p pkt elev_deg direction n (r.2.1, r.2.2)
    (r.1 :: rest.1, rest.2)

/-- Python dict mutation `h[i][...] = ...` on a heap of packet objects:
read the object at address `i`, apply the field update, store it back. -/
def heapWrite {α : Type} (h : List (Packet α)) (i : ℕ)
    (f : Packet α → Packet α) : List (Packet α) :=
  match h[i]? with
  | some v => h.set i (f v)
  | none => h

/-- The body of `propagate` again, but at the level of Python object
identity: the caller's packet lives at address `a` of the heap `h`;
`out = dict(packet)` allocates a fresh copy at address `h.length`, and every
subsequent `out[...] = ...` is a `heapWrite` to that fresh address, exactly
as in the source. Returns the address of the delivered object (if any), the
final heap, the fade state, and the remaining stream. -/
noncomputable def propagateHeap {α : Type} (p : ChannelParams) (st : ChanState)
    (h : List (Packet α)) (a : ℕ) (elev_deg : ℝ) (direction : String)
    (u : ℕ → ℝ) : Option ℕ × List (Packet α) × ChanState × (ℕ → ℝ) :=
  match h[a]? with
  | none => (none, h, st, u)
  | some pkt =>
    let q := linkQuality elev_deg 10
    let fade_start := p.burst_start * (1 + (1 - q) * 3)
    if st.in_fade then
      let r := st.fade_remaining - 1
      (none, h, { in_fade := if r ≤ 0 then false else st.in_fade, fade_remaining := r }, u)
    else if u 0 < fade_start then
      (none, h, { in_fade := true, fade_remaining := p.fade_len }, shift u 1)
    else
      let loss_p := p.base_loss * (1 - q) ^ (1.6 : ℝ)
      let loss_p := if strLower direction == "uplink" then loss_p * 1.15 else loss_p
      if u 1 < loss_p then
        (none, h, st, shift u 2)
      else
        let out := h.length
        let h := h ++ [pkt]
        let ber_p := p.base_ber * (1 - q) ^ (2 : ℝ)
        let ber_p := if strLower direction == "uplink" then ber_p * 1.10 else ber_p
        let h :=
          if u 2 < ber_p then
            heapWrite h out fun o => { o with corrupted := some true, rf_note := some "bit_error" }
          else
            heapWrite h out fun o => { o with corrupted := some (o.corrupted.getD false) }
        let dup_p := p.base_dup * (1 + (1 - q))
        let h :=
          if u 3 < dup_p then heapWrite h out fun o => { o with duplicated := some true }
          else heapWrite h out fun o => { o with duplicated := some false }
        (some out, h, st, shift u 4)

/-- The link budget `data_rate_mbps` of `orbit_leo.py`:
`max_rate * sin(elev)^alpha` above the mask (with the sine clamped to
`[0,1]`), exactly `0` at or below the mask. -/
noncomputable def data_rate_mbps (elev_deg max_rate_mbps alpha elev_mask_deg : ℝ) : ℝ :=
  if elev_deg ≤ elev_mask_deg then 0
  else
    let e_rad := elev_deg * π / 180
    let norm := Real.sin e_rad
    let norm := if norm < 0 then 0 else norm
    let norm := if norm > 1 then 1 else norm
    max_rate_mbps * norm ^ alpha

/-- The `OrbitConfig` fields consumed by `get_state` (the TLE and
ground-station fields feed only the external Skyfield back-end). -/
structure OrbitConfig where
  elev_mask_deg : ℝ
  dl_max_rate_mbps : ℝ
  ul_max_rate_mbps : ℝ
  rate_alpha : ℝ

/-- Defaults of `orbit_leo.py`: mask 10°, 0.258 / 0.050 Mbps, α = 1.5. -/
noncomputable def defaultOrbitConfig : OrbitConfig :=
  { elev_mask_deg := 10.0, dl_max_rate_mbps := 0.258,
    ul_max_rate_mbps := 0.050, rate_alpha := 1.5 }

/-- FALLBACK_ORBIT_PERIOD_S = 90 minutes. -/
noncomputable def FALLBACK_ORBIT_PERIOD_S : ℝ := 90 * 60

/-- FALLBACK_MAX_DOPPLER_HZ. -/
noncomputable def FALLBACK_MAX_DOPPLER_HZ : ℝ := 5000

/-- Elevation of the sinusoidal fallback back-end `_state_fallback`:
`phase = (now % P) / P` (Python float `%`, i.e. the fractional part of
`now / P`), `elev = 90 * max(0, sin(π * phase))`. -/
noncomputable def fallback_elev (now : ℝ) : ℝ :=
  let phase := Int.fract (now / FALLBACK_ORBIT_PERIOD_S)
  90 * max 0 (Real.sin (π * phase))

/-- Doppler proxy of `_state_fallback`. -/
noncomputable def fallback_doppler (now : ℝ) : ℝ :=
  let phase := Int.fract (now / FALLBACK_ORBIT_PERIOD_S)
  FALLBACK_MAX_DOPPLER_HZ * Real.sin (2 * π * phase)

/-- The dict returned by `OrbitModel.get_state`. -/
structure GeomState where
  ts : ℝ
  elev_deg : ℝ
  doppler_hz : ℝ
  visible : Prop
  rate_dl_mbps : ℝ
  rate_ul_mbps : ℝ

/-- `OrbitModel.get_state` with the fallback geometry back-end (the Skyfield
back-end lives in an external library): `visible` is the strict comparison
`elev > mask`, and both rates come from `data_rate_mbps` at the same
elevation. -/
noncomputable def get_state (cfg : OrbitConfig) (now : ℝ) : GeomState :=
  let elev := fallback_elev now
  { ts := now
    elev_deg := elev
    doppler_hz := fallback_doppler now
    visible := elev > cfg.elev_mask_deg
    rate_dl_mbps := data_rate_mbps elev cfg.dl_max_rate_mbps cfg.rate_alpha cfg.elev_mask_deg
    rate_ul_mbps := data_rate_mbps elev cfg.ul_max_rate_mbps cfg.rate_alpha cfg.elev_mask_deg }

/-- TIME_STEP_S of `satellite_leo.py`. -/
noncomputable def TIME_STEP_S : ℝ := 1

/-- PAYLOAD_BYTES. -/
def PAYLOAD_BYTES : ℕ := 256

/-- HEADER_BYTES. -/
def HEADER_BYTES : ℕ := 32

/-- BITS_PER_PACKET = (PAYLOAD_BYTES + HEADER_BYTES) * 8 = 2304. -/
def BITS_PER_PACKET : ℕ := (PAYLOAD_BYTES + HEADER_BYTES) * 8

/-- MAX_PKTS_PER_STEP. -/
def MAX_PKTS_PER_STEP : ℤ := 2000

/-- The burst-budget computation inside `telemetry_sender`:
`bits_step = rate_dl_mbps * 1e6 * TIME_STEP_S`,
`max_pkts = int(bits_step // BITS_PER_PACKET)` (float floor division), then
the `<= 0 → skip` and `> MAX_PKTS_PER_STEP → clamp` checks. -/
noncomputable def burst_pkts (rate_dl_mbps : ℝ) : ℤ :=
  let bits_step := rate_dl_mbps * 1e6 * TIME_STEP_S
  let max_pkts : ℤ := ⌊bits_step / (BITS_PER_PACKET : ℝ)⌋
  if max_pkts ≤ 0 then 0
  else if max_pkts > MAX_PKTS_PER_STEP then MAX_PKTS_PER_STEP else max_pkts

/-- Number of TM packets `telemetry_sender` generates and pushes through the
channel on one tick, including the `not visible or rate_dl <= 0 → skip`
gate. -/
noncomputable def tm_packets_per_tick (visible : Bool) (rate_dl_mbps : ℝ) : ℤ :=
  if visible = false ∨ rate_dl_mbps ≤ 0 then 0
  else burst_pkts rate_dl_mbps

/-- LIVE buffer cap in `tm_receiver` (`bbu_leo.py`). -/
def LIVE_CAP : ℕ := 2000

/-- HISTORY buffer cap in `tm_receiver`. -/
def HIST_CAP : ℕ := 5000

/-- Python `if len(l) > cap: l[:] = l[-cap:]` — keep the most recent `cap`
elements. -/
def capLast (cap : ℕ) (l : List String) : List String :=
  if cap < l.length then l.drop (l.length - cap) else l

/-- The two TM buffers owned by the BBU. -/
structure BbuBuffers where
  live : List String
  history : List String
deriving DecidableEq

/-- The per-datagram body of `tm_receiver`: append to `history` (then ring
truncate to HIST_CAP); if currently visible, also append to `live` (then ring
truncate to LIVE_CAP). -/
def tm_receiver_step (visible : Bool) (raw : String) (b : BbuBuffers) : BbuBuffers :=
  let history := capLast HIST_CAP (b.history ++ [raw])
  if visible then
    { live := capLast LIVE_CAP (b.live ++ [raw]), history := history }
  else
    { live := b.live, history := history }

/-- `tm_receiver` run over a whole sequence of received datagrams (each with
the visibility flag read at its arrival), from the initial empty buffers. -/
def tm_receiver_run (events : List (Bool × String)) : BbuBuffers :=
  events.foldl (fun b ev => tm_receiver_step ev.1 ev.2 b) { live := [], history := [] }

/-- The TC packet dict built by both `tc_sender` (BBU) and
`telecommand_executor` (SAT): `{"type": "TC", "cmd": tc, "ts": now,
"corrupted": False}`. -/
def mkTCPacket (cmd : String) (ts : ℝ) : Packet (String × String × ℝ) :=
  { rest := ("TC", cmd, ts), corrupted := some false, rf_note := none, duplicated := none }

/-- Observable outcome of one iteration of the BBU `tc_sender` loop:
the remaining queue, the channel state, the remaining random stream, the
datagram actually handed to `sock.sendto` (if any), and which log lines
fired. -/
structure TcSendStep where
  queue : List String
  chan : ChanState
  rand : ℕ → ℝ
  sent : Option String
  dropped_logged : Bool
  corrupt_logged : Bool

/-- One iteration of `tc_sender` (`bbu_leo.py`): skip when the queue is
empty or the pass is not visible; otherwise pop the head command, run the
uplink channel on a fresh TC dict, and send the (unmodified) command string
unless the verdict was DROPPED — a corrupted verdict is logged but still
sent. -/
noncomputable def tc_sender_step (visible : Bool) (queue : List String)
    (st : ChanState) (u : ℕ → ℝ) (elev ts : ℝ) : TcSendStep :=
  match queue with
  | [] => { queue := queue, chan := st, rand := u, sent := none,
            dropped_logged := false, corrupt_logged := false }
  | tc :: rest =>
    if visible = false then
      { queue := queue, chan := st, rand := u, sent := none,
        dropped_logged := false, corrupt_logged := false }
    else
      let r := propagate defaultChannelParams st (mkTCPacket tc ts) elev "uplink" u
      match r.1 with
      | none =>
        { queue := rest, chan := r.2.1, rand := r.2.2, sent := none,
          dropped_logged := true, corrupt_logged := false }
      | some pkt2 =>
        { queue := rest, chan := r.2.1, rand := r.2.2, sent := some tc,
          dropped_logged := false, corrupt_logged := pkt2.corrupted.getD false }

/-- Observable outcome of one iteration of the SAT `telecommand_executor`
loop. -/
structure SatExecStep where
  queue : List String
  chan : ChanState
  rand : ℕ → ℝ
  executed : Option String
  lost_logged : Bool
  ignored_logged : Bool

/-- One iteration of `telecommand_executor` (`satellite_leo.py`): only when
visible, dequeue one command, run the uplink channel at the receive side;
DROPPED is discarded, a corrupted delivery is ignored, otherwise the command
is executed. -/
noncomputable def telecommand_executor_step (visible : Bool) (queue : List String)
    (st : ChanState) (u : ℕ → ℝ) (elev ts : ℝ) : SatExecStep :=
  if visible = false then
    { queue := queue, chan := st, rand := u, executed := none,
      lost_logged := false, ignored_logged := false }
  else
    match queue with
    | [] => { queue := queue, chan := st, rand := u, executed := none,
              lost_logged := false, ignored_logged := false }
    | cmd :: rest =>
      let r := propagate defaultChannelParams st (mkTCPacket cmd ts) elev "uplink" u
      match r.1 with
      | none =>
        { queue := rest, chan := r.2.1, rand := r.2.2, executed := none,
          lost_logged := true, ignored_logged := false }
      | some pkt2 =>
        if pkt2.corrupted.getD false then
          { queue := rest, chan := r.2.1, rand := r.2.2, executed := none,
            lost_logged := false, ignored_logged := true }
        else
          { queue := rest, chan := r.2.1, rand := r.2.2, executed := some cmd,
            lost_logged := false, ignored_logged := false }

/-! Helper lemmas on the link budget. -/

/-- The two sequential clamps in `data_rate_mbps` implement
`clamp(sin, 0, 1) = min 1 (max 0 sin)`. -/
lemma data_rate_eq_clamp (e m a mk : ℝ) :
    data_rate_mbps e m a mk =
      if e ≤ mk then 0
      else m * (min 1 (max 0 (Real.sin (e * π / 180)))) ^ a := by
  unfold data_rate_mbps
  by_cases h : e ≤ mk
  · simp [h]
  · simp only [if_neg h]
    set s := Real.sin (e * π / 180) with hs
    have hclamp : (if (if s < 0 then (0:ℝ) else s) > 1 then (1:ℝ)
        else if s < 0 then (0:ℝ) else s) = min 1 (max 0 s) := by
      by_cases h0 : s < 0
      · rw [if_pos h0, max_eq_left h0.le]
        norm_num
      · rw [if_neg h0, max_eq_right (not_lt.mp h0)]
        by_cases h1 : s > 1
        · rw [if_pos h1, min_eq_left h1.le]
        · rw [if_neg h1, min_eq_right (not_lt.mp h1)]
    rw [hclamp]

/-- The clamped sine is nonnegative. -/
lemma clamp_nonneg (s : ℝ) : 0 ≤ min 1 (max 0 s) :=
  le_min zero_le_one (le_max_left _ _)

/-- The budget rate is strictly positive strictly above a nonnegative mask
(for elevations up to 90°) when the zenith rate is positive. -/
lemma data_rate_pos (e m a mk : ℝ) (hmk0 : 0 ≤ mk) (hmke : mk < e)
    (he : e ≤ 90) (hm : 0 < m) : 0 < data_rate_mbps e m a mk := by
  rw [data_rate_eq_clamp, if_neg (not_le.mpr hmke)]
  apply mul_pos hm
  apply Real.rpow_pos_of_pos
  have hepos : 0 < e := lt_of_le_of_lt hmk0 hmke
  have hs : 0 < Real.sin (e * π / 180) := by
    apply Real.sin_pos_of_pos_of_lt_pi
    · have : 0 < π / 180 := by positivity
      calc (0:ℝ) = e * 0 := by ring
      _ < e * (π / 180) := by exact mul_lt_mul_of_pos_left this hepos
      _ = e * π / 180 := by ring
    · have h1 : e * π / 180 ≤ 90 * π / 180 := by
        have : 0 ≤ π / 180 := by positivity
        calc e * π / 180 = e * (π / 180) := by ring
        _ ≤ 90 * (π / 180) := mul_le_mul_of_nonneg_right he this
        _ = 90 * π / 180 := by ring
      have h2 : (90:ℝ) * π / 180 = π / 2 := by ring
      have h3 : π / 2 < π := by linarith [pi_pos]
      linarith
  exact lt_min one_pos (lt_max_of_lt_right hs)

/-- C5: `data_rate_mbps` returns exactly 0 at or below the mask; strictly
above the mask it returns `max_rate * clamp(sin(elev), 0, 1) ^ α`; and at
`elev = 90°` (for any mask below 90°) it returns exactly `max_rate`. -/
theorem data_rate_spec :
    (∀ e m a mk : ℝ, e ≤ mk → data_rate_mbps e m a mk = 0)
    ∧ (∀ e m a mk : ℝ, ¬ e ≤ mk →
        data_rate_mbps e m a mk = m * (min 1 (max 0 (Real.sin (e * π / 180)))) ^ a)
    ∧ (∀ m a mk : ℝ, mk < 90 → data_rate_mbps 90 m a mk = m) := by
  refine ⟨?_, ?_, ?_⟩
  · intro e m a mk h
    unfold data_rate_mbps
    rw [if_pos h]
  · intro e m a mk h
    rw [data_rate_eq_clamp, if_neg h]
  · intro m a mk h
    rw [data_rate_eq_clamp, if_neg (by linarith : ¬ (90:ℝ) ≤ mk)]
    rw [show (90:ℝ) * π / 180 = π / 2 by ring, Real.sin_pi_div_two]
    norm_num [Real.one_rpow]

/-- Witness for C5 at concrete inputs: elevation 5° is below the default
mask, and 90° realises the full zenith rate. -/
theorem data_rate_spec_witness :
    data_rate_mbps 5 0.258 1.5 10 = 0 ∧ data_rate_mbps 90 0.7 1.5 10 = 0.7 :=
  ⟨data_rate_spec.1 5 0.258 1.5 10 (by norm_num),
   data_rate_spec.2.2 0.7 1.5 10 (by norm_num)⟩

/-- C7: for elevations `e ≥ mask` inside the `[-90, 90]` elevation range
(and a nonnegative zenith rate and exponent, as configured), the link budget
is monotone non-decreasing in the elevation. -/
theorem data_rate_monotone (m a mk e₁ e₂ : ℝ) (hm : 0 ≤ m) (ha : 0 ≤ a)
    (he₁ : -90 ≤ e₁) (hmk : mk ≤ e₁) (h12 : e₁ ≤ e₂) (he₂ : e₂ ≤ 90) :
    data_rate_mbps e₁ m a mk ≤ data_rate_mbps e₂ m a mk := by
  rw [data_rate_eq_clamp, data_rate_eq_clamp]
  by_cases h1 : e₁ ≤ mk
  · rw [if_pos h1]
    by_cases h2 : e₂ ≤ mk
    · rw [if_pos h2]
    · rw [if_neg h2]
      exact mul_nonneg hm (Real.rpow_nonneg (clamp_nonneg _) a)
  · rw [if_neg h1, if_neg (fun h => h1 (h12.trans h))]
    apply mul_le_mul_of_nonneg_left _ hm
    apply Real.rpow_le_rpow (clamp_nonneg _) _ ha
    apply min_le_min le_rfl
    apply max_le_max le_rfl
    have hpi : (0:ℝ) ≤ π / 180 := by positivity
    have hmem : ∀ x : ℝ, -90 ≤ x → x ≤ 90 →
        x * π / 180 ∈ Set.Icc (-(π / 2)) (π / 2) := by
      intro x hx1 hx2
      constructor
      · calc -(π / 2) = -90 * (π / 180) := by ring
        _ ≤ x * (π / 180) := mul_le_mul_of_nonneg_right hx1 hpi
        _ = x * π / 180 := by ring
      · calc x * π / 180 = x * (π / 180) := by ring
        _ ≤ 90 * (π / 180) := mul_le_mul_of_nonneg_right hx2 hpi
        _ = π / 2 := by ring
    exact Real.strictMonoOn_sin.monotoneOn
      (hmem e₁ he₁ (h12.trans he₂)) (hmem e₂ (he₁.trans h12) he₂)
      (by calc e₁ * π / 180 = e₁ * (π / 180) := by ring
          _ ≤ e₂ * (π / 180) := mul_le_mul_of_nonneg_right h12 hpi
          _ = e₂ * π / 180 := by ring)

/-- Witness for C7: the default downlink budget does not decrease from 30°
to 60° of elevation. -/
theorem data_rate_monotone_witness :
    data_rate_mbps 30 0.258 1.5 10 ≤ data_rate_mbps 60 0.258 1.5 10 :=
  data_rate_monotone 0.258 1.5 10 30 60 (by norm_num) (by norm_num)
    (by norm_num) (by norm_num) (by norm_num) (by norm_num)

/-! Helper lemmas on the fallback geometry. -/

/-- The fallback elevation proxy is nonnegative. -/
lemma fallback_elev_nonneg (t : ℝ) : 0 ≤ fallback_elev t := by
  unfold fallback_elev
  exact mul_nonneg (by norm_num) (le_max_left _ _)

/-- The fallback elevation proxy never exceeds 90°. -/
lemma fallback_elev_le_90 (t : ℝ) : fallback_elev t ≤ 90 := by
  unfold fallback_elev
  have h : max 0 (Real.sin (π * Int.fract (t / FALLBACK_ORBIT_PERIOD_S))) ≤ 1 :=
    max_le (by norm_num) (Real.sin_le_one _)
  calc (90:ℝ) * max 0 (Real.sin (π * Int.fract (t / FALLBACK_ORBIT_PERIOD_S)))
      ≤ 90 * 1 := mul_le_mul_of_nonneg_left h (by norm_num)
  _ = 90 := by norm_num

/-- Projection of `get_state`: the downlink rate field. -/
lemma get_state_rate_dl (cfg : OrbitConfig) (t : ℝ) :
    (get_state cfg t).rate_dl_mbps =
      data_rate_mbps (fallback_elev t) cfg.dl_max_rate_mbps cfg.rate_alpha cfg.elev_mask_deg := rfl

/-- Projection of `get_state`: the uplink rate field. -/
lemma get_state_rate_ul (cfg : OrbitConfig) (t : ℝ) :
    (get_state cfg t).rate_ul_mbps =
      data_rate_mbps (fallback_elev t) cfg.ul_max_rate_mbps cfg.rate_alpha cfg.elev_mask_deg := rfl

/-- Projection of `get_state`: the visibility flag is the strict comparison
with the mask. -/
lemma get_state_visible (cfg : OrbitConfig) (t : ℝ) :
    (get_state cfg t).visible = (fallback_elev t > cfg.elev_mask_deg) := rfl

/-- Shared core for C6: with the default configuration, a rate field of
`get_state` vanishes exactly outside visibility. -/
lemma rate_zero_iff_aux (t : ℝ) (m : ℝ) (hm : 0 < m) :
    data_rate_mbps (fallback_elev t) m defaultOrbitConfig.rate_alpha
        defaultOrbitConfig.elev_mask_deg = 0
      ↔ ¬ fallback_elev t > defaultOrbitConfig.elev_mask_deg := by
  constructor
  · intro h0 hvis
    have hpos : 0 < data_rate_mbps (fallback_elev t) m defaultOrbitConfig.rate_alpha
        defaultOrbitConfig.elev_mask_deg :=
      data_rate_pos (fallback_elev t) m defaultOrbitConfig.rate_alpha
        defaultOrbitConfig.elev_mask_deg (by norm_num [defaultOrbitConfig]) hvis
        (fallback_elev_le_90 t) hm
    linarith
  · intro hnv
    rw [data_rate_eq_clamp, if_pos (not_lt.mp hnv)]

/-- C6: for every time `t`, the state returned by `get_state` (fallback
back-end, default configuration) has a zero downlink rate exactly when not
visible, and likewise for the uplink rate; visibility is the strict
comparison `elev > mask`. -/
theorem rate_zero_iff_not_visible (t : ℝ) :
    ((get_state defaultOrbitConfig t).rate_dl_mbps = 0
        ↔ ¬ (get_state defaultOrbitConfig t).visible)
    ∧ ((get_state defaultOrbitConfig t).rate_ul_mbps = 0
        ↔ ¬ (get_state defaultOrbitConfig t).visible) := by
  rw [get_state_rate_dl, get_state_rate_ul, get_state_visible]
  exact ⟨rate_zero_iff_aux t _ (by norm_num [defaultOrbitConfig]),
         rate_zero_iff_aux t _ (by norm_num [defaultOrbitConfig])⟩

/-- Witness for C6 at the concrete time `t = 0`. -/
theorem rate_zero_iff_not_visible_witness :
    ((get_state defaultOrbitConfig 0).rate_dl_mbps = 0
        ↔ ¬ (get_state defaultOrbitConfig 0).visible)
    ∧ ((get_state defaultOrbitConfig 0).rate_ul_mbps = 0
        ↔ ¬ (get_state defaultOrbitConfig 0).visible) :=
  rate_zero_iff_not_visible 0

/-! Helper lemmas on the RF channel. -/

/-- While a fade is active, `propagate` decrements the counter, clears the
flag when the counter reaches 0, and drops. -/
lemma propagate_in_fade {α : Type} (p : ChannelParams) (st : ChanState)
    (pkt : Packet α) (e : ℝ) (d : String) (u : ℕ → ℝ) (h : st.in_fade = true) :
    propagate p st pkt e d u =
      (none, { in_fade := if st.fade_remaining - 1 ≤ 0 then false else st.in_fade,
               fade_remaining := st.fade_remaining - 1 }, u) := by
  unfold propagate
  simp [h]

/-- From a clear state, a draw below the ignition probability enters a fade
of `fade_len` packets and drops. -/
lemma propagate_ignite {α : Type} (p : ChannelParams) (st : ChanState)
    (pkt : Packet α) (e : ℝ) (d : String) (u : ℕ → ℝ) (h : st.in_fade = false)
    (hu : u 0 < p.burst_start * (1 + (1 - linkQuality e 10) * 3)) :
    propagate p st pkt e d u =
      (none, { in_fade := true, fade_remaining := p.fade_len }, shift u 1) := by
  unfold propagate
  simp [h, hu]

/-- The channel constants of C2's scenario: every base probability zero. -/
def cleanChannelParams : ChannelParams :=
  { base_loss := 0, base_ber := 0, base_dup := 0, burst_start := 0, fade_len := 25 }

/-- A concrete TM-like packet that carries the `duplicated = True` marker. -/
def pktDup : Packet Unit :=
  { rest := (), corrupted := some false, rf_note := none, duplicated := some true }

/-- The direction string comparison of the source, evaluated. -/
lemma strLower_downlink : (strLower "downlink" == "uplink") = false := by decide

/-- Counterexample to C2 as stated: with all base probabilities zero and a
clear channel, `propagate` still delivers a packet different from its input —
the `duplicated` flag is unconditionally overwritten with `False`. -/
theorem clean_channel_not_identity :
    (propagate cleanChannelParams ChanState.clear pktDup 45 "downlink"
        (fun _ => 1 / 2)).1 ≠ some pktDup
    ∧ ((propagate cleanChannelParams ChanState.clear pktDup 45 "downlink"
        (fun _ => 1 / 2)).1).isSome = true := by
  have h : (propagate cleanChannelParams ChanState.clear pktDup 45 "downlink"
      (fun _ => 1 / 2)).1 =
      some { rest := (), corrupted := some false, rf_note := none,
             duplicated := some false } := by
    unfold propagate
    norm_num [ChanState.clear, cleanChannelParams, strLower_downlink, pktDup]
  rw [h]
  constructor
  · simp [pktDup]
  · rfl

/-- C2 amended: with `BASE_LOSS = BASE_BER = BASE_DUP = BURST_START = 0` and
a clear channel, `propagate` always delivers and leaves the channel state
unchanged, but the output differs from the input in exactly two normalising
writes — `corrupted` becomes the boolean default of the input key and
`duplicated` is overwritten with `False`. It is the identity precisely on
packets whose `corrupted` key is present and whose `duplicated` flag is
`False`. -/
theorem clean_channel_identity {α : Type} (pkt : Packet α) (e : ℝ) (d : String)
    (u : ℕ → ℝ) (hu0 : 0 ≤ u 0) (hu1 : 0 ≤ u 1) (hu2 : 0 ≤ u 2) (hu3 : 0 ≤ u 3) :
    (propagate cleanChannelParams ChanState.clear pkt e d u).1 =
      some { pkt with corrupted := some (pkt.corrupted.getD false),
                      duplicated := some false }
    ∧ (propagate cleanChannelParams ChanState.clear pkt e d u).2.1 = ChanState.clear
    ∧ (∀ c : Bool, pkt.corrupted = some c → pkt.duplicated = some false →
        (propagate cleanChannelParams ChanState.clear pkt e d u).1 = some pkt) := by
  have hmain : propagate cleanChannelParams ChanState.clear pkt e d u =
      (some { pkt with corrupted := some (pkt.corrupted.getD false),
                       duplicated := some false }, ChanState.clear, shift u 4) := by
    unfold propagate
    simp only [cleanChannelParams, ChanState.clear, zero_mul, mul_zero, ite_self]
    rw [if_neg (by simp), if_neg (not_lt.mpr hu0), if_neg (not_lt.mpr hu1),
      if_neg (not_lt.mpr hu2), if_neg (not_lt.mpr hu3)]
  refine ⟨by rw [hmain], by rw [hmain], ?_⟩
  intro c hc hd
  rw [hmain]
  obtain ⟨r, co, no, du⟩ := pkt
  simp only at hc hd
  simp [hc, hd]

/-- Witness for C2's amended theorem at a concrete packet with `corrupted`
present and `duplicated = False`: the channel is the identity on it. -/
theorem clean_channel_identity_witness :
    (propagate cleanChannelParams ChanState.clear
        ({ rest := (), corrupted := some false, rf_note := none,
           duplicated := some false } : Packet Unit) 45 "downlink"
        (fun _ => 1 / 2)).1 =
      some { rest := (), corrupted := some false, rf_note := none,
             duplicated := some false } :=
  (clean_channel_identity _ 45 "downlink" (fun _ => 1 / 2) (by norm_num)
      (by norm_num) (by norm_num) (by norm_num)).2.2 false rfl rfl

/-- Draining a fade: from the state `Fading(n)` (with `n ≥ 1`), the next `n`
calls all drop, no random draw is consumed, and the channel ends Clear. -/
lemma runCalls_drain {α : Type} (p : ChannelParams) (pkt : Packet α) (e : ℝ)
    (d : String) :
    ∀ n : ℕ, 1 ≤ n → ∀ u : ℕ → ℝ,
      runCalls p pkt e d n ({ in_fade := true, fade_remaining := (n : ℤ) }, u) =
        (List.replicate n none, { in_fade := false, fade_remaining := 0 }, u) := by
  intro n
  induction n with
  | zero => omega
  | succ k ih =>
    intro _ u
    by_cases hk : k = 0
    · subst hk
      have h1 : propagate p ({ in_fade := true, fade_remaining := ((1:ℕ) : ℤ) })
          pkt e d u = (none, { in_fade := false, fade_remaining := 0 }, u) := by
        rw [propagate_in_fade p _ pkt e d u rfl]
        norm_num
      simp only [runCalls, h1]
      simp
    · have hk1 : 1 ≤ k := by omega
      have h1 : propagate p ({ in_fade := true, fade_remaining := ((k + 1 : ℕ) : ℤ) })
          pkt e d u = (none, { in_fade := true, fade_remaining := (k : ℤ) }, u) := by
        rw [propagate_in_fade p _ pkt e d u rfl]
        have hr : ((k + 1 : ℕ) : ℤ) - 1 = (k : ℤ) := by push_cast; ring
        simp only [hr]
        rw [if_neg (by omega : ¬ (k : ℤ) ≤ 0)]
      simp only [runCalls, h1]
      rw [ih hk1 u]
      simp [List.replicate_succ]

/-- C1 amended: whenever a fade ignites on a clear channel (as it always
does with `BURST_START = 1.0`), the igniting call and the following
`FADE_LEN` calls — `FADE_LEN + 1` calls in total — all return DROPPED, and
only after them is the channel Clear again. Thus at most `FADE_LEN + 1`
(not `FADE_LEN`) consecutive DROPPED outcomes are attributable to a single
fade, and with `FADE_LEN = 3` the 4th call is still dropped by the fade; the
5th call is the first evaluated on a clear channel. -/
theorem single_fade_drops {α : Type} (p : ChannelParams) (n : ℕ) (hn : 1 ≤ n)
    (hp : p.fade_len = (n : ℤ)) (pkt : Packet α) (e : ℝ) (d : String)
    (st : ChanState) (hst : st.in_fade = false) (u : ℕ → ℝ)
    (hignite : u 0 < p.burst_start * (1 + (1 - linkQuality e 10) * 3)) :
    (runCalls p pkt e d (n + 1) (st, u)).1 = List.replicate (n + 1) none
    ∧ (runCalls p pkt e d (n + 1) (st, u)).2.1 =
        { in_fade := false, fade_remaining := 0 } := by
  have h1 := propagate_ignite p st pkt e d u hst hignite
  have hrun : runCalls p pkt e d (n + 1) (st, u) =
      (none :: (List.replicate n none), { in_fade := false, fade_remaining := 0 },
        shift u 1) := by
    simp only [runCalls, h1, hp]
    rw [runCalls_drain p pkt e d n hn (shift u 1)]
  rw [hrun]
  exact ⟨by simp [List.replicate_succ], rfl⟩

/-- The channel constants of scenario S4: `BURST_START = 1.0`,
`FADE_LEN = 3`, other constants at their defaults. -/
noncomputable def burstTestParams : ChannelParams :=
  { base_loss := 0.08, base_ber := 0.02, base_dup := 0.002,
    burst_start := 1.0, fade_len := 3 }

/-- A TM packet as built by `telemetry_sender` (no `duplicated` key). -/
def pktTM : Packet Unit :=
  { rest := (), corrupted := some false, rf_note := none, duplicated := none }

/-- Counterexample to C1 as stated: with `BURST_START = 1.0` and
`FADE_LEN = 3` from the Clear state, all of the first 4 calls return
DROPPED — the 4th call is not admitted past the fade stage, and a single
fade accounts for 4 > FADE_LEN consecutive drops. -/
theorem burst_fade_fourth_call_dropped :
    (runCalls burstTestParams pktTM 45 "downlink" 4
        ({ in_fade := false, fade_remaining := 0 }, fun _ => 0)).1 =
      [none, none, none, none] := by
  have h1 := propagate_ignite burstTestParams
    ({ in_fade := false, fade_remaining := 0 }) pktTM 45 "downlink"
    (fun _ => 0) rfl (by unfold linkQuality; norm_num [burstTestParams])
  have hp3 : burstTestParams.fade_len = ((3 : ℕ) : ℤ) := by
    norm_num [burstTestParams]
  show (runCalls burstTestParams pktTM 45 "downlink" (3 + 1)
      ({ in_fade := false, fade_remaining := 0 }, fun _ => 0)).1 = _
  simp only [runCalls]
  rw [h1, hp3]
  norm_num [propagate_in_fade]

/-- Witness for C1's amended theorem at the S4 scenario: 4 consecutive
drops, then the channel is Clear. -/
theorem single_fade_drops_witness :
    (runCalls burstTestParams pktTM 45 "downlink" (3 + 1)
        ({ in_fade := false, fade_remaining := 0 }, fun _ => 0)).1 =
      List.replicate (3 + 1) none
    ∧ (runCalls burstTestParams pktTM 45 "downlink" (3 + 1)
        ({ in_fade := false, fade_remaining := 0 }, fun _ => 0)).2.1 =
      { in_fade := false, fade_remaining := 0 } :=
  single_fade_drops burstTestParams 3 (by norm_num) (by norm_num [burstTestParams])
    pktTM 45 "downlink" { in_fade := false, fade_remaining := 0 } rfl (fun _ => 0)
    (by unfold linkQuality; norm_num [burstTestParams])

/-- A `heapWrite` at one address leaves every other address unchanged. -/
lemma heapWrite_getElem_ne {α : Type} (hp : List (Packet α)) (i j : ℕ)
    (f : Packet α → Packet α) (hij : i ≠ j) :
    (heapWrite hp i f)[j]? = hp[j]? := by
  unfold heapWrite
  cases hg : hp[i]? with
  | none => rfl
  | some v => exact List.getElem?_set_ne hij

/-- C9: `propagate` never mutates the caller's packet object: whatever the
verdict, the object at the caller's address is unchanged after the call, and
when a packet is delivered it lives at a fresh address (the copy made by
`dict(packet)`), never at the caller's. -/
theorem propagate_no_input_mutation {α : Type} (p : ChannelParams)
    (st : ChanState) (h : List (Packet α)) (a : ℕ) (e : ℝ) (d : String)
    (u : ℕ → ℝ) (ha : a < h.length) :
    (propagateHeap p st h a e d u).2.1[a]? = h[a]?
    ∧ (∀ r : ℕ, (propagateHeap p st h a e d u).1 = some r → r ≠ a) := by
  have hlen : h.length ≠ a := by omega
  unfold propagateHeap
  cases hget : h[a]? with
  | none =>
    exact absurd hget (by simp [List.getElem?_eq_getElem ha])
  | some pkt =>
    simp only
    split_ifs with h1 h2 h3 h4 h5 <;>
      refine ⟨?_, ?_⟩ <;>
      simp only [List.getElem?_append_left ha, heapWrite_getElem_ne _ _ _ _ hlen,
        ne_eq, Option.some.injEq] <;>
      first
        | exact hget
        | rfl
        | (intro r hr; exact absurd hr (by simp))
        | (intro r hr; omega)

/-- Witness for C9: a singleton heap whose only object is the caller's
packet, with the channel mid-fade. -/
theorem propagate_no_input_mutation_witness :
    (propagateHeap defaultChannelParams { in_fade := true, fade_remaining := 5 }
        [pktTM] 0 45 "downlink" (fun _ => 0)).2.1[0]? = [pktTM][0]?
    ∧ (∀ r : ℕ, (propagateHeap defaultChannelParams
        { in_fade := true, fade_remaining := 5 }
        [pktTM] 0 45 "downlink" (fun _ => 0)).1 = some r → r ≠ 0) :=
  propagate_no_input_mutation defaultChannelParams
    { in_fade := true, fade_remaining := 5 } [pktTM] 0 45 "downlink"
    (fun _ => 0) (by norm_num)

/-- C3: on the BBU uplink the channel verdict is applied as logging only.
For a visible pass with a queued command: a DROPPED verdict is logged and
the UDP send is skipped, while a delivered verdict — corrupted or not — is
still sent (the corrupted case merely logs); and on the SAT side the locally
applied channel is authoritative: the command executes exactly when the
SAT-side `propagate` delivers it uncorrupted. -/
theorem uplink_verdict_logging_only (tc : String) (rest : List String)
    (st₁ st₂ : ChanState) (u₁ u₂ : ℕ → ℝ) (elev ts : ℝ) :
    ((propagate defaultChannelParams st₁ (mkTCPacket tc ts) elev "uplink" u₁).1 = none →
      (tc_sender_step true (tc :: rest) st₁ u₁ elev ts).sent = none
      ∧ (tc_sender_step true (tc :: rest) st₁ u₁ elev ts).dropped_logged = true
      ∧ (tc_sender_step true (tc :: rest) st₁ u₁ elev ts).queue = rest)
    ∧ (∀ pkt2 : Packet (String × String × ℝ),
        (propagate defaultChannelParams st₁ (mkTCPacket tc ts) elev "uplink" u₁).1 = some pkt2 →
          (tc_sender_step true (tc :: rest) st₁ u₁ elev ts).sent = some tc
          ∧ (tc_sender_step true (tc :: rest) st₁ u₁ elev ts).corrupt_logged =
              pkt2.corrupted.getD false)
    ∧ ((telecommand_executor_step true (tc :: rest) st₂ u₂ elev ts).executed = some tc ↔
        ∃ pkt2 : Packet (String × String × ℝ),
          (propagate defaultChannelParams st₂ (mkTCPacket tc ts) elev "uplink" u₂).1 = some pkt2
          ∧ pkt2.corrupted.getD false = false) := by
  refine ⟨?_, ?_, ?_⟩
  · intro hnone
    simp [tc_sender_step, hnone]
  · intro pkt2 hsome
    simp [tc_sender_step, hsome]
  · constructor
    · intro hex
      cases hv : (propagate defaultChannelParams st₂ (mkTCPacket tc ts) elev "uplink" u₂).1 with
      | none => simp [telecommand_executor_step, hv] at hex
      | some pkt2 =>
        by_cases hc : pkt2.corrupted.getD false
        · simp [telecommand_executor_step, hv, hc] at hex
        · exact ⟨pkt2, hv ▸ rfl, by simpa using hc⟩
    · rintro ⟨pkt2, hv, hc⟩
      simp [telecommand_executor_step, hv, hc]

/-- Witness for C3 with the channel mid-fade (a deterministic DROPPED
verdict): the send is skipped, the drop is logged, and the command has left
the queue. -/
theorem uplink_verdict_logging_only_witness :
    (tc_sender_step true ["PING"] { in_fade := true, fade_remaining := 5 }
        (fun _ => 0) 45 0).sent = none
    ∧ (tc_sender_step true ["PING"] { in_fade := true, fade_remaining := 5 }
        (fun _ => 0) 45 0).dropped_logged = true
    ∧ (tc_sender_step true ["PING"] { in_fade := true, fade_remaining := 5 }
        (fun _ => 0) 45 0).queue = [] :=
  (uplink_verdict_logging_only "PING" [] { in_fade := true, fade_remaining := 5 }
      { in_fade := true, fade_remaining := 5 } (fun _ => 0) (fun _ => 0) 45 0).1
    (by rw [propagate_in_fade _ _ _ _ _ _ rfl])

/-- C10: when the BBU uplink dequeues a TC command and the uplink verdict is
DROPPED, the command is permanently lost: it has been removed from the
queue, is not re-enqueued, and is never handed to the UDP socket. -/
theorem dropped_tc_permanently_lost (tc : String) (rest : List String)
    (st : ChanState) (u : ℕ → ℝ) (elev ts : ℝ)
    (hdrop : (propagate defaultChannelParams st (mkTCPacket tc ts) elev "uplink" u).1 = none) :
    (tc_sender_step true (tc :: rest) st u elev ts).queue = rest
    ∧ (tc_sender_step true (tc :: rest) st u elev ts).sent = none := by
  simp [tc_sender_step, hdrop]

/-- Witness for C10: a concrete two-element queue with the channel mid-fade;
the head command is gone from the queue and nothing is sent. -/
theorem dropped_tc_permanently_lost_witness :
    (tc_sender_step true ["A", "B"] { in_fade := true, fade_remaining := 7 }
        (fun _ => 0) 60 0).queue = ["B"]
    ∧ (tc_sender_step true ["A", "B"] { in_fade := true, fade_remaining := 7 }
        (fun _ => 0) 60 0).sent = none :=
  dropped_tc_permanently_lost "A" ["B"] { in_fade := true, fade_remaining := 7 }
    (fun _ => 0) 60 0 (by rw [propagate_in_fade _ _ _ _ _ _ rfl])

/-- Length of a ring-truncated buffer. -/
lemma capLast_length (cap : ℕ) (l : List String) :
    (capLast cap l).length = min cap l.length := by
  unfold capLast
  by_cases hc : cap < l.length
  · rw [if_pos hc]
    simp only [List.length_drop]
    omega
  · rw [if_neg hc]
    omega

/-- Every suffix of TM ingress steps keeps both buffers within their caps. -/
lemma tm_receiver_fold_caps (events : List (Bool × String)) :
    ∀ b : BbuBuffers, b.live.length ≤ LIVE_CAP → b.history.length ≤ HIST_CAP →
      ((events.foldl (fun b ev => tm_receiver_step ev.1 ev.2 b) b).live.length ≤ LIVE_CAP
        ∧ (events.foldl (fun b ev => tm_receiver_step ev.1 ev.2 b) b).history.length ≤ HIST_CAP) := by
  induction events with
  | nil =>
    intro b h1 h2
    exact ⟨h1, h2⟩
  | cons ev evts ih =>
    intro b h1 h2
    rw [List.foldl_cons]
    simp only [LIVE_CAP, HIST_CAP] at h1 h2
    apply ih
    · cases hv : ev.1 <;>
        simp [tm_receiver_step, hv, capLast_length, LIVE_CAP, HIST_CAP] <;> omega
    · cases hv : ev.1 <;>
        simp [tm_receiver_step, hv, capLast_length, LIVE_CAP, HIST_CAP] <;> omega

/-- C8: the BBU TM ingress preserves the buffer invariant across every
received datagram: starting from empty buffers, after any sequence of
datagrams `|live| ≤ LIVE_CAP` and `|history| ≤ HIST_CAP`; and in each single
step the datagram is appended to `history`, and whenever it is appended to
`live` (exactly the visible case) it is the same datagram appended to both. -/
theorem tm_buffer_invariant :
    (∀ events : List (Bool × String),
        (tm_receiver_run events).live.length ≤ LIVE_CAP
        ∧ (tm_receiver_run events).history.length ≤ HIST_CAP)
    ∧ (∀ (v : Bool) (raw : String) (b : BbuBuffers),
        (tm_receiver_step v raw b).history = capLast HIST_CAP (b.history ++ [raw])
        ∧ (v = true → (tm_receiver_step v raw b).live = capLast LIVE_CAP (b.live ++ [raw]))
        ∧ (v = false → (tm_receiver_step v raw b).live = b.live)) := by
  constructor
  · intro events
    exact tm_receiver_fold_caps events { live := [], history := [] }
      (by simp [LIVE_CAP]) (by simp [HIST_CAP])
  · intro v raw b
    cases v <;> simp [tm_receiver_step]

/-- Witness for C8's per-step clause at a concrete visible datagram. -/
theorem tm_buffer_invariant_witness :
    (tm_receiver_step true "tm0" { live := [], history := [] }).history =
      capLast HIST_CAP ([] ++ ["tm0"])
    ∧ (tm_receiver_step true "tm0" { live := [], history := [] }).live =
      capLast LIVE_CAP ([] ++ ["tm0"]) :=
  ⟨(tm_buffer_invariant.2 true "tm0" { live := [], history := [] }).1,
   (tm_buffer_invariant.2 true "tm0" { live := [], history := [] }).2.1 rfl⟩

/-- BITS_PER_PACKET evaluates to 2304 bits. -/
lemma bits_cast : ((BITS_PER_PACKET : ℕ) : ℝ) = 2304 := by
  norm_num [BITS_PER_PACKET, PAYLOAD_BYTES, HEADER_BYTES]

/-- The elevation-30° downlink rate of scenario S2 in closed form. -/
lemma s2_rate : data_rate_mbps 30 0.258 1.5 10 = 0.258 * (Real.sqrt 2 / 4) := by
  rw [data_rate_eq_clamp, if_neg (by norm_num : ¬ (30:ℝ) ≤ 10)]
  have hangle : (30:ℝ) * π / 180 = π / 6 := by ring
  rw [hangle, Real.sin_pi_div_six]
  have hmax : max (0:ℝ) (1/2) = 1/2 := by norm_num
  have hmin : min (1:ℝ) (1/2) = 1/2 := by norm_num
  rw [hmax, hmin]
  congr 1
  have h15 : (1.5 : ℝ) = (1/2 : ℝ) * 3 := by norm_num
  rw [h15, Real.rpow_mul (by norm_num : (0:ℝ) ≤ 1/2), ← Real.sqrt_eq_rpow]
  rw [show (3:ℝ) = ((3:ℕ):ℝ) by norm_num, Real.rpow_natCast]
  have h2 : Real.sqrt 2 * Real.sqrt 2 = 2 := Real.mul_self_sqrt (by norm_num)
  have hs : Real.sqrt (1/2) = Real.sqrt 2 / 2 := by
    rw [show (1:ℝ)/2 = 2⁻¹ by norm_num, Real.sqrt_inv]
    have hne : Real.sqrt 2 ≠ 0 := by positivity
    field_simp
  rw [hs]
  calc (Real.sqrt 2 / 2) ^ (3:ℕ) = Real.sqrt 2 * Real.sqrt 2 * Real.sqrt 2 / 8 := by ring
  _ = 2 * Real.sqrt 2 / 8 := by rw [h2]
  _ = Real.sqrt 2 / 4 := by ring

/-- C4: on a visible tick with positive downlink rate, `telemetry_sender`
emits exactly `min ⌊rate · 10^6 · Δt / bits_per_packet⌋ MAX_PKTS_PER_STEP`
packets; when the tick yields fewer bits than one packet it emits none; and
in scenario S2 (mask 10°, elevation 30°, 0.258 Mbps, α = 1.5, Δt = 1 s,
256 B payload + 32 B header) the budget is exactly 39 packets. -/
theorem tm_burst_budget :
    (∀ rate : ℝ, 0 < rate →
        tm_packets_per_tick true rate =
          min ⌊rate * 1e6 * TIME_STEP_S / ((BITS_PER_PACKET : ℕ) : ℝ)⌋ MAX_PKTS_PER_STEP)
    ∧ (∀ rate : ℝ, rate * 1e6 * TIME_STEP_S < ((BITS_PER_PACKET : ℕ) : ℝ) →
        tm_packets_per_tick true rate = 0)
    ∧ tm_packets_per_tick true (data_rate_mbps 30 0.258 1.5 10) = 39 := by
  refine ⟨?_, ?_, ?_⟩
  · intro rate h
    unfold tm_packets_per_tick burst_pkts
    rw [if_neg (by push_neg; exact ⟨by norm_num, h⟩ :
      ¬ ((true : Bool) = false ∨ rate ≤ 0))]
    have hm0 : 0 ≤ ⌊rate * 1e6 * TIME_STEP_S / ((BITS_PER_PACKET : ℕ) : ℝ)⌋ :=
      Int.floor_nonneg.mpr (div_nonneg
        (mul_nonneg (mul_nonneg h.le (by norm_num)) (by norm_num [TIME_STEP_S]))
        (by positivity))
    simp only [MAX_PKTS_PER_STEP] at hm0 ⊢
    split_ifs <;> omega
  · intro rate hlt
    unfold tm_packets_per_tick burst_pkts
    by_cases hgate : (true : Bool) = false ∨ rate ≤ 0
    · rw [if_pos hgate]
    · rw [if_neg hgate]
      have hfl : ⌊rate * 1e6 * TIME_STEP_S / ((BITS_PER_PACKET : ℕ) : ℝ)⌋ ≤ 0 := by
        have hlt1 : rate * 1e6 * TIME_STEP_S / ((BITS_PER_PACKET : ℕ) : ℝ) < 1 := by
          rw [bits_cast] at hlt ⊢
          rw [div_lt_one (by norm_num : (0:ℝ) < 2304)]
          exact hlt
        have := Int.floor_lt.mpr (by exact_mod_cast hlt1 :
          rate * 1e6 * TIME_STEP_S / ((BITS_PER_PACKET : ℕ) : ℝ) < ((1:ℤ) : ℝ))
        omega
      rw [if_pos hfl]
  · have hratepos : (0:ℝ) < 0.258 * (Real.sqrt 2 / 4) := by positivity
    unfold tm_packets_per_tick burst_pkts
    rw [s2_rate]
    rw [if_neg (by push_neg; exact ⟨by norm_num, hratepos⟩ :
      ¬ ((true : Bool) = false ∨ 0.258 * (Real.sqrt 2 / 4) ≤ 0))]
    have h2 : Real.sqrt 2 * Real.sqrt 2 = 2 := Real.mul_self_sqrt (by norm_num)
    have hs0 : (0:ℝ) ≤ Real.sqrt 2 := Real.sqrt_nonneg 2
    have hx : (0.258:ℝ) * (Real.sqrt 2 / 4) * 1e6 * TIME_STEP_S
        / ((BITS_PER_PACKET : ℕ) : ℝ) = 5375 * Real.sqrt 2 / 192 := by
      rw [bits_cast, show TIME_STEP_S = 1 from rfl]
      ring_nf
    have hfloor : ⌊(0.258:ℝ) * (Real.sqrt 2 / 4) * 1e6 * TIME_STEP_S
        / ((BITS_PER_PACKET : ℕ) : ℝ)⌋ = 39 := by
      rw [hx, Int.floor_eq_iff]
      constructor
      · rw [le_div_iff (by norm_num : (0:ℝ) < 192)]
        push_cast
        nlinarith [h2, hs0]
      · rw [div_lt_iff (by norm_num : (0:ℝ) < 192)]
        push_cast
        nlinarith [h2, hs0]
    simp only [hfloor]
    norm_num [MAX_PKTS_PER_STEP]

/-- Witness for C4 at concrete rates: 0.2 Mbps fills the formula, 0.001 Mbps
(1000 bits per tick) emits nothing. -/
theorem tm_burst_budget_witness :
    tm_packets_per_tick true 0.2 =
      min ⌊(0.2:ℝ) * 1e6 * TIME_STEP_S / ((BITS_PER_PACKET : ℕ) : ℝ)⌋ MAX_PKTS_PER_STEP
    ∧ tm_packets_per_tick true 0.001 = 0 :=
  ⟨tm_burst_budget.1 0.2 (by norm_num),
   tm_burst_budget.2.1 0.001 (by rw [bits_cast]; norm_num [TIME_STEP_S])⟩

end SatSim
